import Mathlib

/-!
Shallow embedding of the todo-list application in `src/src/App.jsx`.

The store state (`useTodos`) is a JavaScript array of task objects
`{ id, text, completed }`; we model it as a `List Task`.  `Date.now()` is a
wall-clock reading supplied by the environment, so the operations that
consume it (`addTodo`, and `handleSubmit` on its success path) take the
current clock value `now : Nat` as an explicit argument.  JavaScript string
`.length` counts UTF-16 code units; Lean's `String.length` counts code
points, which agrees on all strings without astral-plane characters (all
strings in this development are ASCII).
-/

namespace TodoApp

/-- A task object `{ id, text, completed }` as built by `useTodos`. -/
structure Task where
  id : Nat
  text : String
  completed : Bool
  deriving DecidableEq, Repr

/-- The seed list passed to `useState` in `useTodos` (App.jsx lines 8-13). -/
def seedTodos : List Task :=
  [ ⟨1, "Make a logo bigger", false⟩,
    ⟨2, "Launch the Beta version", true⟩,
    ⟨3, "Fix the car", false⟩,
    ⟨4, "Make a dinner", false⟩ ]

/-- `addTodo` (App.jsx lines 16-21): spread the previous array and append
`{ id: Date.now(), text, completed: false }`.  The clock reading
`Date.now()` is the explicit argument `now`. -/
def addTodo (now : Nat) (text : String) (prevTodos : List Task) : List Task :=
  prevTodos ++ [⟨now, text, false⟩]

/-- `toggleTodo` (App.jsx lines 23-29): map over the array, replacing every
task whose id matches with a copy whose `completed` is negated. -/
def toggleTodo (i : Nat) (prevTodos : List Task) : List Task :=
  prevTodos.map (fun todo =>
    if todo.id = i then { todo with completed := !todo.completed } else todo)

/-- `deleteTodo` (App.jsx lines 31-33): keep exactly the tasks whose id
differs (`todo.id !== id`). -/
def deleteTodo (i : Nat) (prevTodos : List Task) : List Task :=
  prevTodos.filter (fun todo => todo.id != i)

/-- The character class stripped by JavaScript `String.prototype.trim`:
WhiteSpace (TAB, VT, FF, SP, NBSP, ZWNBSP and the Unicode space
separators) together with the LineTerminator code points. -/
def isJsWhitespace (c : Char) : Bool :=
  c.toNat = 0x09 || c.toNat = 0x0a || c.toNat = 0x0b || c.toNat = 0x0c ||
  c.toNat = 0x0d || c.toNat = 0x20 || c.toNat = 0xa0 || c.toNat = 0x1680 ||
  (0x2000 ≤ c.toNat && c.toNat ≤ 0x200a) ||
  c.toNat = 0x2028 || c.toNat = 0x2029 || c.toNat = 0x202f ||
  c.toNat = 0x205f || c.toNat = 0x3000 || c.toNat = 0xfeff

/-- JavaScript `String.prototype.trim`: strip `isJsWhitespace` characters
from both ends of the string. -/
def jsTrim (s : String) : String :=
  ⟨((s.data.dropWhile isJsWhitespace).reverse.dropWhile isJsWhitespace).reverse⟩

/-- The fixed validation message set by `handleSubmit` (App.jsx line 66). -/
def errorMsg : String := "Task must be minimum 5 characters"

/-- The view-private state of `AddTodoForm`: the controlled input value and
the current error message (empty string when no error is shown). -/
structure FormState where
  inputValue : String
  error : String
  deriving DecidableEq, Repr

/-- `handleInputChange` (App.jsx lines 56-61): always store the new value;
clear the error when one is displayed (`error` truthy, i.e. non-empty) and
the new value's raw length — the code does not trim here — is at least 5. -/
def handleInputChange (v : String) (st : FormState) : FormState :=
  if st.error ≠ "" ∧ 5 ≤ v.length then
    { inputValue := v, error := "" }
  else
    { st with inputValue := v }

/-- The state `handleSubmit` can read and write: the store's list plus the
form's local state. -/
structure AppState where
  todos : List Task
  form : FormState
  deriving DecidableEq, Repr

/-- `handleSubmit` (App.jsx lines 63-72): if the trimmed input is shorter
than 5 characters, set the error and return; otherwise call
`addTodo(inputValue.trim())` and clear the input.  Neither branch touches
the other fields. -/
def handleSubmit (now : Nat) (s : AppState) : AppState :=
  if (jsTrim s.form.inputValue).length < 5 then
    { s with form := { s.form with error := errorMsg } }
  else
    { todos := addTodo now (jsTrim s.form.inputValue) s.todos,
      form := { s.form with inputValue := "" } }

/-- One store operation, as issued by the views; an `add` carries the clock
reading `Date.now()` returned at the moment it runs. -/
inductive Op where
  | add (now : Nat) (text : String)
  | toggle (i : Nat)
  | delete (i : Nat)
  deriving DecidableEq, Repr

/-- Apply one operation to the store's list. -/
def applyOp (l : List Task) : Op → List Task
  | .add now text => addTodo now text l
  | .toggle i => toggleTodo i l
  | .delete i => deleteTodo i l

/-- The store state after running a sequence of operations from the seed. -/
def runOps (ops : List Op) : List Task :=
  ops.foldl applyOp seedTodos

/-! ### Helper lemmas -/

theorem toggleTodo_cons (i : Nat) (a : Task) (as : List Task) :
    toggleTodo i (a :: as) =
      (if a.id = i then { a with completed := !a.completed } else a)
        :: toggleTodo i as := rfl

theorem toggleTodo_id_of_forall_ne (i : Nat) (l : List Task)
    (h : ∀ t ∈ l, t.id ≠ i) : toggleTodo i l = l := by
  induction l with
  | nil => rfl
  | cons a as ih =>
    rw [toggleTodo_cons, if_neg (h a (List.mem_cons_self a as)),
      ih fun t ht => h t (List.mem_cons_of_mem a ht)]

theorem deleteTodo_cons (i : Nat) (a : Task) (as : List Task) :
    deleteTodo i (a :: as) =
      if a.id = i then deleteTodo i as else a :: deleteTodo i as := by
  by_cases h : a.id = i <;> simp [deleteTodo, List.filter_cons, h]

theorem deleteTodo_id_of_forall_ne (i : Nat) (l : List Task)
    (h : ∀ t ∈ l, t.id ≠ i) : deleteTodo i l = l := by
  induction l with
  | nil => rfl
  | cons a as ih =>
    rw [deleteTodo_cons, if_neg (h a (List.mem_cons_self a as)),
      ih fun t ht => h t (List.mem_cons_of_mem a ht)]

/-! ### Claim theorems -/

/-- C1: for every task list and every input string whose trimmed length is
at least 5, submitting performs exactly one append: the resulting list is
the old list followed by one new task (so every previously present task is
unchanged and in its original position), the length grows by exactly 1, and
the new last element has the trimmed text and `completed = false`. -/
theorem handleSubmit_valid_appends (now : Nat) (s : AppState)
    (h : 5 ≤ (jsTrim s.form.inputValue).length) :
    (handleSubmit now s).todos =
        s.todos ++ [⟨now, jsTrim s.form.inputValue, false⟩] ∧
    (handleSubmit now s).todos.length = s.todos.length + 1 ∧
    (handleSubmit now s).todos.getLast? =
        some ⟨now, jsTrim s.form.inputValue, false⟩ := by
  unfold handleSubmit
  rw [if_neg (by omega)]
  refine ⟨rfl, by simp [addTodo], ?_⟩
  simp [addTodo]

theorem handleSubmit_valid_appends_witness :
    5 ≤ (jsTrim " Buy milk ").length ∧
    ((handleSubmit 99 ⟨seedTodos, ⟨" Buy milk ", ""⟩⟩).todos =
        seedTodos ++ [⟨99, jsTrim " Buy milk ", false⟩] ∧
    (handleSubmit 99 ⟨seedTodos, ⟨" Buy milk ", ""⟩⟩).todos.length =
        seedTodos.length + 1 ∧
    (handleSubmit 99 ⟨seedTodos, ⟨" Buy milk ", ""⟩⟩).todos.getLast? =
        some ⟨99, jsTrim " Buy milk ", false⟩) :=
  ⟨by decide, handleSubmit_valid_appends 99 ⟨seedTodos, ⟨" Buy milk ", ""⟩⟩ (by decide)⟩

/-- C2: in a list where the task with id `i` occurs at one position and no
other task has that id (the claim's "the task with id i"), `toggleTodo i`
replaces that task, in place, by the copy with `completed` negated (id and
text unchanged) and leaves every other task and the order unchanged. -/
theorem toggleTodo_present (i : Nat) (t : Task) (l₁ l₂ : List Task)
    (hid : t.id = i)
    (h₁ : ∀ u ∈ l₁, u.id ≠ i) (h₂ : ∀ u ∈ l₂, u.id ≠ i) :
    toggleTodo i (l₁ ++ t :: l₂) =
      l₁ ++ { t with completed := !t.completed } :: l₂ := by
  have : toggleTodo i (l₁ ++ t :: l₂) =
      toggleTodo i l₁ ++ toggleTodo i (t :: l₂) := by
    simp [toggleTodo]
  rw [this, toggleTodo_cons, if_pos hid,
    toggleTodo_id_of_forall_ne i l₁ h₁, toggleTodo_id_of_forall_ne i l₂ h₂]

theorem toggleTodo_present_witness :
    ((1 : Nat) = 1 ∧
      (∀ u ∈ ([] : List Task), u.id ≠ 2) ∧
      (∀ u ∈ [(⟨3, "Fix the car", false⟩ : Task)], u.id ≠ 2)) ∧
    toggleTodo 2 ([] ++ (⟨2, "Launch the Beta version", true⟩ : Task)
        :: [⟨3, "Fix the car", false⟩]) =
      [] ++ (⟨2, "Launch the Beta version", false⟩ : Task)
        :: [⟨3, "Fix the car", false⟩] :=
  ⟨⟨rfl, by decide, by decide⟩,
    toggleTodo_present 2 ⟨2, "Launch the Beta version", true⟩ []
      [⟨3, "Fix the car", false⟩] rfl (by decide) (by decide)⟩

/-- C3: in a list where the task with id `i` occurs at one position and no
other task has that id, `deleteTodo i` removes exactly that one element and
keeps all remaining elements in their relative order. -/
theorem deleteTodo_present (i : Nat) (t : Task) (l₁ l₂ : List Task)
    (hid : t.id = i)
    (h₁ : ∀ u ∈ l₁, u.id ≠ i) (h₂ : ∀ u ∈ l₂, u.id ≠ i) :
    deleteTodo i (l₁ ++ t :: l₂) = l₁ ++ l₂ := by
  have : deleteTodo i (l₁ ++ t :: l₂) =
      deleteTodo i l₁ ++ deleteTodo i (t :: l₂) := by
    simp [deleteTodo]
  rw [this, deleteTodo_cons, if_pos hid,
    deleteTodo_id_of_forall_ne i l₁ h₁, deleteTodo_id_of_forall_ne i l₂ h₂]

theorem deleteTodo_present_witness :
    ((1 : Nat) = 1 ∧
      (∀ u ∈ [(⟨2, "Launch the Beta version", true⟩ : Task)], u.id ≠ 1) ∧
      (∀ u ∈ ([] : List Task), u.id ≠ 1)) ∧
    deleteTodo 1 ([⟨2, "Launch the Beta version", true⟩]
        ++ (⟨1, "Make a logo bigger", false⟩ : Task) :: []) =
      [⟨2, "Launch the Beta version", true⟩] ++ [] :=
  ⟨⟨rfl, by decide, by decide⟩,
    deleteTodo_present 1 ⟨1, "Make a logo bigger", false⟩
      [⟨2, "Launch the Beta version", true⟩] [] rfl (by decide) (by decide)⟩

/-- C4: submitting an input whose trimmed length is below 5 leaves the task
list untouched (so `addTodo` is never invoked — the todos component of the
state is returned unchanged), leaves the input field's text unchanged, and
sets the error message to the fixed validation string. -/
theorem handleSubmit_invalid_rejects (now : Nat) (s : AppState)
    (h : (jsTrim s.form.inputValue).length < 5) :
    (handleSubmit now s).todos = s.todos ∧
    (handleSubmit now s).form.inputValue = s.form.inputValue ∧
    (handleSubmit now s).form.error = errorMsg := by
  unfold handleSubmit
  rw [if_pos h]
  exact ⟨rfl, rfl, rfl⟩

theorem handleSubmit_invalid_rejects_witness :
    (jsTrim "ok").length < 5 ∧
    ((handleSubmit 99 ⟨seedTodos, ⟨"ok", ""⟩⟩).todos = seedTodos ∧
    (handleSubmit 99 ⟨seedTodos, ⟨"ok", ""⟩⟩).form.inputValue = "ok" ∧
    (handleSubmit 99 ⟨seedTodos, ⟨"ok", ""⟩⟩).form.error = errorMsg) :=
  ⟨by decide, handleSubmit_invalid_rejects 99 ⟨seedTodos, ⟨"ok", ""⟩⟩ (by decide)⟩

/-- C5: the id-uniqueness invariant fails on the code.  `addTodo` assigns
`Date.now()` as the id, so two adds executed within the same clock
millisecond receive the same id: running two adds with the same clock
reading from the seed list yields ids `[1, 2, 3, 4, 5, 5]`, which are not
pairwise distinct.  This evaluates the store at that failing input. -/
theorem runOps_id_collision :
    (runOps [.add 5 "same tick", .add 5 "still same tick"]).map Task.id =
        [1, 2, 3, 4, 5, 5] ∧
    ¬ ((runOps [.add 5 "same tick", .add 5 "still same tick"]).map
        Task.id).Nodup := by
  exact ⟨by decide, by decide⟩

/-- C6 counterexample: the claim says the error stays displayed when the
updated text's trimmed length is still below 5; but `handleInputChange`
tests the raw, untrimmed length.  On the keystroke producing `"a    "`
(raw length 5, trimmed length 1 < 5) with the validation error displayed,
the code clears the error. -/
theorem handleInputChange_trim_cex :
    (jsTrim "a    ").length < 5 ∧
    errorMsg ≠ "" ∧
    (handleInputChange "a    " ⟨"", errorMsg⟩).error = "" := by
  exact ⟨by decide, by decide, by decide⟩

/-- C6 amended: on every keystroke while a validation error is displayed,
the input text is updated, and the error is cleared exactly when the
updated text's raw (untrimmed) length is at least 5; it stays displayed
when the raw length is below 5.  (Since trimming never lengthens a string,
a trimmed length of at least 5 still guarantees the clear.) -/
theorem handleInputChange_clears_on_raw_length (v : String) (st : FormState)
    (herr : st.error ≠ "") :
    (handleInputChange v st).inputValue = v ∧
    (handleInputChange v st).error = (if 5 ≤ v.length then "" else st.error) := by
  unfold handleInputChange
  by_cases h : 5 ≤ v.length
  · rw [if_pos ⟨herr, h⟩, if_pos h]
    exact ⟨rfl, rfl⟩
  · rw [if_neg (fun hc => h hc.2), if_neg h]
    exact ⟨rfl, rfl⟩

theorem handleInputChange_clears_on_raw_length_witness :
    errorMsg ≠ "" ∧
    ((handleInputChange "hi all" ⟨"hi", errorMsg⟩).inputValue = "hi all" ∧
    (handleInputChange "hi all" ⟨"hi", errorMsg⟩).error =
        (if 5 ≤ "hi all".length then "" else errorMsg)) :=
  ⟨by decide, handleInputChange_clears_on_raw_length "hi all" ⟨"hi", errorMsg⟩ (by decide)⟩

/-- C7: when no task in the list has id `i`, both `toggleTodo i` and
`deleteTodo i` return the list unchanged; both are total functions whose
only output is the new list, so no error or other signal exists. -/
theorem toggle_delete_absent_noop (i : Nat) (l : List Task)
    (h : ∀ t ∈ l, t.id ≠ i) :
    toggleTodo i l = l ∧ deleteTodo i l = l :=
  ⟨toggleTodo_id_of_forall_ne i l h, deleteTodo_id_of_forall_ne i l h⟩

theorem toggle_delete_absent_noop_witness :
    (∀ t ∈ seedTodos, t.id ≠ 42) ∧
    (toggleTodo 42 seedTodos = seedTodos ∧ deleteTodo 42 seedTodos = seedTodos) :=
  ⟨by decide, toggle_delete_absent_noop 42 seedTodos (by decide)⟩

/-- C8: toggling the same id twice in succession restores the entire list,
and in particular every task's `completed` flag, to its original value —
`toggleTodo i` is an involution, for any list and any id (present, absent,
or even duplicated). -/
theorem toggleTodo_involution (i : Nat) (l : List Task) :
    toggleTodo i (toggleTodo i l) = l := by
  induction l with
  | nil => rfl
  | cons a as ih =>
    obtain ⟨aid, atext, ac⟩ := a
    by_cases h : aid = i <;>
      simp [toggleTodo_cons, h, ih, Bool.not_not]

/-- C9: `deleteTodo i` removes every element whose id equals `i` — with a
duplicated id, one call removes all copies: no element of the result has
id `i`, the result is a subsequence of the input (relative order kept,
nothing added), every task with a different id is kept, and the length
drops by exactly the number of tasks whose id was `i`. -/
theorem deleteTodo_removes_all (i : Nat) (l : List Task) :
    (∀ t ∈ deleteTodo i l, t.id ≠ i) ∧
    (deleteTodo i l).Sublist l ∧
    (∀ t ∈ l, t.id ≠ i → t ∈ deleteTodo i l) ∧
    (deleteTodo i l).length + l.countP (fun t => t.id == i) = l.length := by
  refine ⟨?_, ?_, ?_, ?_⟩
  · intro t ht
    have := List.of_mem_filter ht
    simpa using this
  · exact List.filter_sublist l
  · intro t ht hne
    exact List.mem_filter.mpr ⟨ht, by simpa using hne⟩
  · induction l with
    | nil => rfl
    | cons a as ih =>
      by_cases h : a.id = i <;>
        simp [deleteTodo_cons, List.countP_cons, h] at * <;> omega

/-- C10: for any list and any id (present, absent, or duplicated),
`toggleTodo i` preserves the length, the sequence of ids, and the sequence
of texts; only the `completed` field of an element can change. -/
theorem toggleTodo_frame (i : Nat) (l : List Task) :
    (toggleTodo i l).length = l.length ∧
    (toggleTodo i l).map Task.id = l.map Task.id ∧
    (toggleTodo i l).map Task.text = l.map Task.text := by
  induction l with
  | nil => exact ⟨rfl, rfl, rfl⟩
  | cons a as ih =>
    obtain ⟨ih₁, ih₂, ih₃⟩ := ih
    by_cases h : a.id = i <;>
      simp [toggleTodo_cons, h, ih₁, ih₂, ih₃]

end TodoApp
